import Mathlib

/-!
Verification development for the reposcan source-acquisition and
plugin-orchestration engine.  The definitions below are a shallow embedding
of `src/main.py`, `src/utils/repo_handler.py`, `src/plugins/eslint_plugin.py`
and `src/plugins/dependency_plugin.py`.  Strings are lists of characters,
the filesystem is a small explicit state (existing files, existing
directories, a counter used for fresh temporary names), and every external
effect (git, HTTP, npm, pip, eslint, the clock) is a parameter supplied by
an environment record, since the program only observes those effects
through exit codes, produced files and parsed output.
-/

namespace RepoScan

/-- Python strings are modelled as lists of characters. -/
abbrev Str := List Char

/-- Embed a Lean string literal as a character list. -/
def str (s : String) : Str := s.data

/-- Equality test on embedded strings. -/
def strEq (a b : Str) : Bool := decide (a = b)

/-- Membership test of a string in a list of strings. -/
def hasStr : List Str → Str → Bool
  | [], _ => false
  | a :: rest, p => strEq a p || hasStr rest p

/-- Test whether the first list is a leading segment of the second
(Python `str.startswith`). -/
def isPrefixChars : Str → Str → Bool
  | [], _ => true
  | _ :: _, [] => false
  | p :: ps, c :: cs => if p = c then isPrefixChars ps cs else false

/-- Substring containment (Python `pat in s`). -/
def containsSub (pat : Str) : Str → Bool
  | [] => pat.isEmpty
  | c :: rest => isPrefixChars pat (c :: rest) || containsSub pat rest

/-- Fuel-indexed worker for `replaceAll`.  Scans left to right; at a match
it emits the replacement and skips past the matched occurrence, exactly the
semantics of Python `str.replace` for a non-empty pattern.  The fuel is
always at least the length of the remaining input, so the `0` branch is
never reached by `replaceAll`. -/
def replaceAllFuel (old new : Str) : Nat → Str → Str
  | _, [] => []
  | 0, s => s
  | fuel + 1, c :: rest =>
    if isPrefixChars old (c :: rest) then
      new ++ replaceAllFuel old new fuel (List.drop (old.length - 1) rest)
    else
      c :: replaceAllFuel old new fuel rest

/-- Python `s.replace(old, new)`: replace every non-overlapping occurrence,
left to right. -/
def replaceAll (old new s : Str) : Str := replaceAllFuel old new s.length s

/-- Fuel-indexed worker for `splitSep` (Python `str.split` with a non-empty
separator). -/
def splitSepFuel (sep : Str) : Nat → Str → List Str
  | _, [] => [[]]
  | 0, s => [s]
  | fuel + 1, c :: rest =>
    if isPrefixChars sep (c :: rest) then
      [] :: splitSepFuel sep fuel (List.drop (sep.length - 1) rest)
    else
      match splitSepFuel sep fuel rest with
      | [] => [[c]]
      | h :: t => (c :: h) :: t

/-- Python `s.split(sep)` for a non-empty separator. -/
def splitSep (sep s : Str) : List Str := splitSepFuel sep s.length s

/-- The whitespace characters removed by Python `str.strip()`. -/
def isPySpace (c : Char) : Bool :=
  decide (c = ' ') || decide (c = '\t') || decide (c = '\n') ||
  decide (c = '\r') || decide (c = '\x0B') || decide (c = '\x0C')

/-- Python `s.strip()`: remove leading and trailing whitespace. -/
def stripChars (s : Str) : Str :=
  ((s.dropWhile isPySpace).reverse.dropWhile isPySpace).reverse

/-- Python `os.path.basename`: the part after the last slash. -/
def basenameStr (s : Str) : Str :=
  (s.reverse.takeWhile (fun c => !(decide (c = '/')))).reverse

/-- Python `repo_input.split(":", 1)[1]`: everything after the first colon. -/
def afterFirstColon : Str → Str
  | [] => []
  | c :: rest => if c = ':' then rest else afterFirstColon rest

/-! Input-classification helpers, translated from
`repo_handler.py` lines 55-106. -/

/-- Detect a GitHub file URL: starts with the GitHub https host and
contains a `/blob/` segment (`is_github_file_url`). -/
def is_github_file_url (s : Str) : Bool :=
  isPrefixChars (str "https://github.com/") s && containsSub (str "/blob/") s

/-- Detect a GitHub repository reference (`is_github_repo_url`): the https
form without `/blob/`, or the `github:` short form. -/
def is_github_repo_url (s : Str) : Bool :=
  (isPrefixChars (str "https://github.com/") s && !containsSub (str "/blob/") s) ||
  isPrefixChars (str "github:") s

/-- Detect a PyPI package reference (`is_pypi_input`). -/
def is_pypi_input (s : Str) : Bool :=
  isPrefixChars (str "pypi:") s || isPrefixChars (str "pip:") s

/-- Detect an NPM package reference (`is_npm_input`). -/
def is_npm_input (s : Str) : Bool :=
  isPrefixChars (str "npm:") s

/-- Detect a generic remote file (`is_remote_file`): an http(s) URL that is
not on the GitHub https host. -/
def is_remote_file (s : Str) : Bool :=
  (isPrefixChars (str "http://") s || isPrefixChars (str "https://") s) &&
  !isPrefixChars (str "https://github.com/") s

/-! The filesystem state threaded through the pipeline. -/

/-- Filesystem state: the existing regular files, the existing directories,
and a counter from which `tempfile.mkdtemp` draws fresh names. -/
structure World where
  files : List Str
  dirs : List Str
  tmpCounter : Nat
deriving DecidableEq, Repr

/-- Test whether a path is an existing regular file (`os.path.isfile`). -/
def pathIsFile (w : World) (p : Str) : Bool := hasStr w.files p

/-- Test whether a path is an existing directory (`os.path.isdir`). -/
def pathIsDir (w : World) (p : Str) : Bool := hasStr w.dirs p

/-- Test whether a path exists at all (`os.path.exists`). -/
def pathExists (w : World) (p : Str) : Bool := pathIsFile w p || pathIsDir w p

/-- Create a regular file (or overwrite one) at the given path. -/
def addFile (p : Str) (w : World) : World := ⟨p :: w.files, w.dirs, w.tmpCounter⟩

/-- Create a directory at the given path. -/
def addDir (p : Str) (w : World) : World := ⟨w.files, p :: w.dirs, w.tmpCounter⟩

/-- Create a directory only when absent (`os.makedirs(..., exist_ok=True)`). -/
def ensureDir (p : Str) (w : World) : World :=
  if pathIsDir w p then w else addDir p w

/-- Test whether `p` is the path `d` itself or lies beneath it. -/
def underPath (d p : Str) : Bool := strEq p d || isPrefixChars (d ++ str "/") p

/-- Python `shutil.rmtree(d)`: remove the tree rooted at `d`. -/
def rmtree (d : Str) (w : World) : World :=
  ⟨w.files.filter (fun p => !underPath d p),
   w.dirs.filter (fun p => !underPath d p),
   w.tmpCounter⟩

/-- The name that `tempfile.mkdtemp(prefix=pre)` produces for the n-th
temporary directory of a run. -/
def tmpName (pre : Str) (n : Nat) : Str := str "/tmp/" ++ pre ++ Nat.toDigits 10 n

/-- Python `tempfile.mkdtemp(prefix=pre)`: create a fresh temporary
directory and return its path. -/
def mkdtemp (pre : Str) (w : World) : Str × World :=
  (tmpName pre w.tmpCounter,
   ⟨w.files, tmpName pre w.tmpCounter :: w.dirs, w.tmpCounter + 1⟩)

/-! The plugin engine of `main.py`.  The four registered plugins observe
the world only through external tools, so each scan outcome (an opaque
payload, or a raised exception) is supplied by the environment. -/

/-- Outcome of one plugin scan: a returned payload (opaque to the engine,
modelled as a number) or a raised exception. -/
inductive POut where
  | ok (payload : Nat)
  | raises
deriving DecidableEq, Repr

/-- Scan outcomes for the four registered plugins, in registration order of
`main.py` lines 73-79. -/
structure PluginEnv where
  regexOutcome : POut
  banditOutcome : POut
  eslintOutcome : POut
  depOutcome : POut
deriving DecidableEq, Repr

/-- The registered plugin list of `main.py`, in registration order, paired
with each scan outcome. -/
def pluginList (pe : PluginEnv) : List (Str × POut) :=
  [(str "RegexPlugin", pe.regexOutcome),
   (str "BanditPlugin", pe.banditOutcome),
   (str "ESLintPlugin", pe.eslintOutcome),
   (str "DependencyPlugin", pe.depOutcome)]

/-- Result of the plugin loop of `main.py` lines 82-86: the accumulated
`scan_results` entries, the trace of plugins whose scan was invoked, and
whether an exception escaped the loop. -/
structure LoopOut where
  results : List (Str × Nat)
  invoked : List Str
  raised : Bool
deriving DecidableEq, Repr

/-- The plugin loop of `main.py`: plugins run in registration order; the
loop has no exception handler, so the first raising plugin terminates it
and the plugins after it are never invoked. -/
def runPluginLoop : List (Str × POut) → LoopOut
  | [] => ⟨[], [], false⟩
  | (n, POut.ok r) :: rest =>
    let o := runPluginLoop rest
    ⟨(n, r) :: o.results, n :: o.invoked, o.raised⟩
  | (n, POut.raises) :: _ => ⟨[], [n], true⟩

/-- Behaviour of every external collaborator observed during one run. -/
structure Env where
  plugins : PluginEnv
  gitCloneExit : Nat
  clonedFiles : List Str
  httpOk : Bool
  npmInstalled : Bool
  npmPackExit : Nat
  npmTarballName : Str
  npmTarballCreated : Bool
  npmTarHasPackageDir : Bool
  pypiApiOk : Bool
  pypiApiArchiveName : Str
  pypiNoBinaryOk : Bool
  pypiNoBinaryArchiveName : Str
  pypiRegularOk : Bool
  pypiRegularArchiveName : Str
  pypiExtractedSubdir : Option Str
  reportFilename : Str
deriving DecidableEq, Repr

/-- Result of a fetch function: a returned local path with the new world, or
`sys.exit(code)` with the world at the moment of exit. -/
inductive FetchRes where
  | ok (path : Str) (w : World)
  | exit (code : Nat) (w : World)
deriving DecidableEq, Repr

/-- Create the files a successful shallow clone writes beneath the
temporary directory. -/
def addFilesUnder (d : Str) (rels : List Str) (w : World) : World :=
  rels.foldl (fun acc r => addFile (d ++ str "/" ++ r) acc) w

/-- `fetch_github_repo` (`repo_handler.py` lines 112-144): make a temporary
directory, clone into it; on a non-zero clone exit remove the directory and
exit with status 1. -/
def fetch_github_repo (env : Env) (repoInput : Str) (w : World) : FetchRes :=
  match mkdtemp (str "repo_scan_") w with
  | (tmpDir, w1) =>
    if env.gitCloneExit = 0 then
      FetchRes.ok tmpDir (addFilesUnder tmpDir env.clonedFiles w1)
    else
      FetchRes.exit 1 (rmtree tmpDir w1)

/-- `fetch_remote_file` (`repo_handler.py` lines 348-380): make a temporary
directory, download into `tmpdir/basename(url)`; on a request failure remove
the directory and exit with status 1. -/
def fetch_remote_file (env : Env) (fileUrl : Str) (w : World) : FetchRes :=
  match mkdtemp (str "repo_scan_file_") w with
  | (tmpDir, w1) =>
    let localPath := tmpDir ++ str "/" ++ basenameStr fileUrl
    if env.httpOk then
      FetchRes.ok localPath (addFile localPath w1)
    else
      FetchRes.exit 1 (rmtree tmpDir w1)

/-- The raw URL computed by `fetch_github_file` (`repo_handler.py` lines
332-346): replace every occurrence of the browse host by the raw host, then
every occurrence of the `/blob/` marker by a single slash. -/
def github_file_raw_url (u : Str) : Str :=
  replaceAll (str "/blob/") (str "/")
    (replaceAll (str "github.com") (str "raw.githubusercontent.com") u)

/-- `fetch_github_file`: rewrite the browse URL and delegate to
`fetch_remote_file`. -/
def fetch_github_file (env : Env) (fileUrl : Str) (w : World) : FetchRes :=
  fetch_remote_file env (github_file_raw_url fileUrl) w

/-- `fetch_npm_package` (`repo_handler.py` lines 268-330): exit before any
temporary directory is created when npm is absent; otherwise create the
temporary and extraction directories, pack, check the tarball, extract, and
check the `package` subdirectory; every late failure removes the temporary
directory before exiting. -/
def fetch_npm_package (env : Env) (pkg : Str) (w : World) : FetchRes :=
  if !env.npmInstalled then FetchRes.exit 1 w
  else
    match mkdtemp (str "repo_scan_npm_") w with
    | (tmpDir, w1) =>
      let extractDir := tmpDir ++ str "/extracted"
      let w2 := addDir extractDir w1
      if !(env.npmPackExit = 0) then FetchRes.exit 1 (rmtree tmpDir w2)
      else
        let tarballPath := tmpDir ++ str "/" ++ env.npmTarballName
        let w3 := if env.npmTarballCreated then addFile tarballPath w2 else w2
        if !pathExists w3 tarballPath then FetchRes.exit 1 (rmtree tmpDir w3)
        else
          let packageDir := extractDir ++ str "/package"
          let w4 := if env.npmTarHasPackageDir then addDir packageDir w3 else w3
          if !pathExists w4 packageDir then FetchRes.exit 1 (rmtree tmpDir w4)
          else FetchRes.ok packageDir w4

/-- Success path shared by the three pypi download strategies: the archive
lands in the temporary directory, extraction fills the extraction
directory, and `get_package_dir` returns the single top-level subdirectory
when there is one, the extraction directory otherwise. -/
def fetch_pypi_extract (env : Env) (tmpDir extractDir arch : Str) (w : World) : FetchRes :=
  let w1 := addFile (tmpDir ++ str "/" ++ arch) w
  match env.pypiExtractedSubdir with
  | some d => FetchRes.ok (extractDir ++ str "/" ++ d) (addDir (extractDir ++ str "/" ++ d) w1)
  | none => FetchRes.ok extractDir w1

/-- `fetch_pypi_package` (`repo_handler.py` lines 146-253): three download
strategies tried in order (registry metadata API, source-only pip download,
generic pip download), each collapsed here to an environment flag saying
whether it yields an archive, since no claim depends on which strategy
wins; all three failing removes the temporary directory and exits 1. -/
def fetch_pypi_package (env : Env) (pkg : Str) (w : World) : FetchRes :=
  match mkdtemp (str "repo_scan_pypi_") w with
  | (tmpDir, w1) =>
    let extractDir := tmpDir ++ str "/extracted"
    let w2 := addDir extractDir w1
    if env.pypiApiOk then fetch_pypi_extract env tmpDir extractDir env.pypiApiArchiveName w2
    else if env.pypiNoBinaryOk then
      fetch_pypi_extract env tmpDir extractDir env.pypiNoBinaryArchiveName w2
    else if env.pypiRegularOk then
      fetch_pypi_extract env tmpDir extractDir env.pypiRegularArchiveName w2
    else FetchRes.exit 1 (rmtree tmpDir w2)

/-- `fetch_code_source` (`repo_handler.py` lines 386-422): classify the
input by the fixed order of checks and dispatch to the matching fetcher;
anything unrecognized must be an existing local path, else exit 1. -/
def fetch_code_source (env : Env) (repoInput : Str) (w : World) : FetchRes :=
  if is_github_file_url repoInput then fetch_github_file env repoInput w
  else if is_github_repo_url repoInput then fetch_github_repo env repoInput w
  else if is_pypi_input repoInput then
    fetch_pypi_package env (stripChars (afterFirstColon repoInput)) w
  else if is_npm_input repoInput then
    fetch_npm_package env (stripChars (List.drop 4 repoInput)) w
  else if is_remote_file repoInput then fetch_remote_file env repoInput w
  else if pathIsFile w repoInput || pathIsDir w repoInput then FetchRes.ok repoInput w
  else FetchRes.exit 1 w

/-- The cleanup condition computed in `main.py` line 68. -/
def cleanupNeededFor (p : Str) : Bool :=
  isPrefixChars (str "/tmp/repo_scan_") p || containsSub (str "repo_scan_") p

/-- The `finally` block of `main.py` lines 99-105: remove the fetched path
when the cleanup condition holds and the path is not a regular file. -/
def cleanupStep (needed : Bool) (p : Str) (w : World) : World :=
  if needed && !pathIsFile w p then rmtree p w else w

/-- Outcome of one whole pipeline invocation: the final filesystem, the
process exit status, whether the report file was written, and the trace of
plugins whose scan was invoked. -/
structure RunOutcome where
  world : World
  exitCode : Nat
  reportWritten : Bool
  pluginsInvoked : List Str
deriving DecidableEq, Repr

/-- `main` (`main.py` lines 49-107): fetch, compute the cleanup flag, run
the plugin loop (no handler around it), generate the report
(`generate_report` ends with `os.makedirs("reports", exist_ok=True)`, so
the directory exists before the file is opened), write the report file, and
run the `finally` cleanup on every path out of the `try` block.  An
exception escaping the plugin loop reaches the interpreter after the
`finally` block and terminates the process with status 1. -/
def mainRun (env : Env) (repoInput : Str) (w : World) : RunOutcome :=
  match fetch_code_source env repoInput w with
  | FetchRes.exit c we => ⟨we, c, false, []⟩
  | FetchRes.ok finalPath w1 =>
    if (runPluginLoop (pluginList env.plugins)).raised then
      ⟨cleanupStep (cleanupNeededFor finalPath) finalPath w1, 1, false,
       (runPluginLoop (pluginList env.plugins)).invoked⟩
    else
      ⟨cleanupStep (cleanupNeededFor finalPath) finalPath
         (addFile (str "reports/" ++ env.reportFilename) (ensureDir (str "reports") w1)),
       0, true, (runPluginLoop (pluginList env.plugins)).invoked⟩

/-! Source classification as a value, for the classification claims. -/

/-- The addressing schemes an input string can resolve to. -/
inductive SourceKind where
  | gitFile
  | gitRepo
  | registryPyPI
  | registryNpm
  | remoteFile
  | localPath
  | unrecognized
deriving DecidableEq, Repr

/-- The classification performed by the chain of checks in
`fetch_code_source`, in source order. -/
def classify_source (w : World) (s : Str) : SourceKind :=
  if is_github_file_url s then SourceKind.gitFile
  else if is_github_repo_url s then SourceKind.gitRepo
  else if is_pypi_input s then SourceKind.registryPyPI
  else if is_npm_input s then SourceKind.registryNpm
  else if is_remote_file s then SourceKind.remoteFile
  else if pathIsFile w s || pathIsDir w s then SourceKind.localPath
  else SourceKind.unrecognized

/-- Modelled from the spec: the priority-ordered classification rules as the
specification states them — repo browse-file URL first, then generic repo
URL or short form, then registry prefixes, then generic http(s) URL, then
existing local path, otherwise a fatal classification failure. -/
def resolve_priority_spec (w : World) (s : Str) : SourceKind :=
  if isPrefixChars (str "https://github.com/") s && containsSub (str "/blob/") s then
    SourceKind.gitFile
  else if (isPrefixChars (str "https://github.com/") s && !containsSub (str "/blob/") s) ||
      isPrefixChars (str "github:") s then
    SourceKind.gitRepo
  else if isPrefixChars (str "pypi:") s || isPrefixChars (str "pip:") s then
    SourceKind.registryPyPI
  else if isPrefixChars (str "npm:") s then
    SourceKind.registryNpm
  else if (isPrefixChars (str "http://") s || isPrefixChars (str "https://") s) &&
      !isPrefixChars (str "https://github.com/") s then
    SourceKind.remoteFile
  else if pathIsFile w s || pathIsDir w s then
    SourceKind.localPath
  else SourceKind.unrecognized

/-! The requirements parser and renderer of the dependency plugin
(`dependency_plugin.py`). -/

/-- Result of parsing one requirements line: a raised exception (the tuple
unpacking of `line.split` fails when the separator occurs more than once),
a skipped line, or one `(package, versionSpec)` pair. -/
inductive LineParse where
  | raised
  | ok (d : Option (Str × Str))
deriving DecidableEq, Repr

/-- One iteration of the loop in `parse_requirements_txt`
(`dependency_plugin.py` lines 122-135): strip the line, skip blank and
comment lines, split at `==` first, else at `>=` (prepending `>=` to the
version), else record the bare package with an empty version. -/
def parse_req_line (rawLine : Str) : LineParse :=
  let line := stripChars rawLine
  if line.isEmpty || isPrefixChars (str "#") line then LineParse.ok none
  else if containsSub (str "==") line then
    match splitSep (str "==") line with
    | [pkg, ver] => LineParse.ok (some (stripChars pkg, stripChars ver))
    | _ => LineParse.raised
  else if containsSub (str ">=") line then
    match splitSep (str ">=") line with
    | [pkg, ver] => LineParse.ok (some (stripChars pkg, str ">=" ++ stripChars ver))
    | _ => LineParse.raised
  else LineParse.ok (some (line, []))

/-- Result of parsing a whole requirements file. -/
inductive ReqParse where
  | raised
  | ok (deps : List (Str × Str))
deriving DecidableEq, Repr

/-- `parse_requirements_txt` over the list of lines of the file: the pairs
in line order; an exception on any line aborts the whole parse. -/
def parse_requirements_txt : List Str → ReqParse
  | [] => ReqParse.ok []
  | ln :: rest =>
    match parse_req_line ln with
    | LineParse.raised => ReqParse.raised
    | LineParse.ok none => parse_requirements_txt rest
    | LineParse.ok (some d) =>
      match parse_requirements_txt rest with
      | ReqParse.raised => ReqParse.raised
      | ReqParse.ok ds => ReqParse.ok (d :: ds)

/-- The re-rendering of one parsed pair performed by `_run_pip_audit`
(`dependency_plugin.py` lines 249-253) when it synthesizes the temporary
requirements manifest: `pkg==ver` when the version spec is non-empty, the
bare name otherwise. -/
def render_req (d : Str × Str) : Str :=
  if d.2.isEmpty then d.1 else d.1 ++ str "==" ++ d.2

/-- A version constraint named by a requirements line. -/
inductive VersionConstraint where
  | exact (v : Str)
  | atLeast (v : Str)
  | any
deriving DecidableEq, Repr

/-- Modelled from the spec: the semantic content of a requirements line in
the three supported forms — `pkg==ver` pins the version, `pkg>=ver` gives a
lower bound, a bare `pkg` allows any version.  Blank and comment lines name
nothing. -/
def line_semantic_content (rawLine : Str) : Option (Str × VersionConstraint) :=
  let line := stripChars rawLine
  if line.isEmpty || isPrefixChars (str "#") line then none
  else if containsSub (str "==") line then
    match splitSep (str "==") line with
    | [pkg, ver] => some (stripChars pkg, VersionConstraint.exact (stripChars ver))
    | _ => none
  else if containsSub (str ">=") line then
    match splitSep (str ">=") line with
    | [pkg, ver] => some (stripChars pkg, VersionConstraint.atLeast (stripChars ver))
    | _ => none
  else some (line, VersionConstraint.any)

/-- A character that can appear in a package name or version token: not
whitespace, not part of a `==` or `>=` operator, not a comment marker. -/
def goodChar (c : Char) : Bool :=
  !isPySpace c && !(decide (c = '=')) && !(decide (c = '>')) && !(decide (c = '#'))

/-- A clean requirements token: non-empty and made of `goodChar`s. -/
def goodTok (t : Str) : Bool := !t.isEmpty && t.all goodChar

/-! The eslint plugin (`eslint_plugin.py`). -/

/-- One message object in the parsed eslint JSON output. -/
structure EsMsg where
  line : Nat
  ruleId : Str
  message : Str
  severity : Nat
deriving DecidableEq, Repr

/-- Observable outcome of one eslint subprocess invocation: whether the
invocation raised, its exit code, and its parsed stdout — `none` for
malformed JSON, otherwise the list of per-file result objects, each with
its message list (`none` for a falsy result object or a missing `messages`
key). -/
structure EsRun where
  raises : Bool
  returncode : Nat
  parsed : Option (List (Option (List EsMsg)))
deriving DecidableEq, Repr

/-- Environment of the eslint plugin: whether the tool is installed and
what one invocation on a given file yields. -/
structure EslintEnv where
  installed : Bool
  run : Str → EsRun

/-- One reported issue in the findings of the eslint plugin. -/
structure EsIssue where
  line : Nat
  rule : Str
  message : Str
  severity : Str
deriving DecidableEq, Repr

/-- Python value returned by `ESLintPlugin.scan`: the implicit `None` when
the loop body never runs, the empty dict, or a dict carrying issues. -/
inductive EsScanResult where
  | pyNone
  | emptyDict
  | issues (l : List EsIssue)
deriving DecidableEq, Repr

/-- The message-to-issue conversion of `eslint_plugin.py` lines 108-115. -/
def esMsgToIssue (m : EsMsg) : EsIssue :=
  ⟨m.line, m.ruleId, m.message, if m.severity = 2 then str "error" else str "warning"⟩

/-- The body of the file loop of `ESLintPlugin.scan` (`eslint_plugin.py`
lines 55-123) applied to one file: every branch returns — an odd exit code,
malformed JSON, empty output or a missing message list yields the empty
dict, and otherwise the converted message list is returned. -/
def eslint_process_file (env : EslintEnv) (f : Str) : EsScanResult :=
  let r := env.run f
  if r.raises then EsScanResult.emptyDict
  else if r.returncode ≠ 0 ∧ r.returncode ≠ 1 then EsScanResult.emptyDict
  else
    match r.parsed with
    | none => EsScanResult.emptyDict
    | some [] => EsScanResult.emptyDict
    | some (none :: _) => EsScanResult.emptyDict
    | some (some msgs :: _) =>
      let issues := msgs.map esMsgToIssue
      if issues.isEmpty then EsScanResult.emptyDict else EsScanResult.issues issues

/-- The files `os.walk` yields beneath a directory, in listing order. -/
def walkFiles (w : World) (d : Str) : List Str :=
  w.files.filter (fun f => isPrefixChars (d ++ str "/") f)

/-- The file loop of `ESLintPlugin.scan`: since every branch of the body
returns, only the first collected file is ever processed; the implicit
return value is the Python `None` when the list is empty.  The second
component is the trace of files the external tool was invoked on. -/
def eslint_loop (env : EslintEnv) : List Str → EsScanResult × List Str
  | [] => (EsScanResult.pyNone, [])
  | f :: _ => (eslint_process_file env f, [f])

/-- `ESLintPlugin.scan`: skip when the tool is absent, collect all files of
a directory target (or the single file target), then run the loop. -/
def eslint_scan (env : EslintEnv) (w : World) (target : Str) : EsScanResult × List Str :=
  if !env.installed then (EsScanResult.emptyDict, [])
  else if pathIsDir w target then eslint_loop env (walkFiles w target)
  else if pathIsFile w target then eslint_loop env [target]
  else (EsScanResult.emptyDict, [])

/-! Repo-wide dependency identification (`dependency_plugin.py` lines
180-238). -/

/-- Environment of the dependency plugin: the lines of any file it opens
and the parsed content of any `package.json` (`none` for malformed JSON,
which `parse_package_json` turns into an empty list, so the file is
skipped either way). -/
structure DepEnv where
  fileLines : Str → List Str
  pkgJson : Str → Option (List (Str × Str))

/-- `Path(repo).rglob(name)`: the existing files beneath the root whose
basename is exactly `name`, in listing order. -/
def rglobName (w : World) (root name : Str) : List Str :=
  w.files.filter (fun f => isPrefixChars (root ++ str "/") f && strEq (basenameStr f) name)

/-- `path.relative_to(repo_path)` for a path beneath the root. -/
def relTo (root f : Str) : Str := f.drop (root.length + 1)

/-- One iteration of the pyproject loop of `identify_repo_dependencies`
(`dependency_plugin.py` lines 215-224).  The call site invokes
`parse_pyproject_toml` without the `self.` qualifier; no module-level
binding of that name exists, so the call raises `NameError` before any
parsing happens. -/
def pyproject_iteration : ReqParse := ReqParse.raised

/-- The requirements.txt loop of `identify_repo_dependencies`: parse each
found file, skip it when parsing raises (the exception is printed and the
loop continues) or when it yields no pairs. -/
def dep_req_fold (env : DepEnv) (w : World) (p : Str) : List (Str × List (Str × Str)) :=
  (rglobName w p (str "requirements.txt")).foldr
    (fun f acc =>
      match parse_requirements_txt (env.fileLines f) with
      | ReqParse.raised => acc
      | ReqParse.ok deps => if deps.isEmpty then acc else (relTo p f, deps) :: acc)
    []

/-- The pyproject.toml loop of `identify_repo_dependencies`: every
iteration takes the `pyproject_iteration` outcome. -/
def dep_pyproject_fold (p : Str) (files : List Str) : List (Str × List (Str × Str)) :=
  files.foldr
    (fun f acc =>
      match pyproject_iteration with
      | ReqParse.raised => acc
      | ReqParse.ok deps => if deps.isEmpty then acc else (relTo p f, deps) :: acc)
    []

/-- The package.json loop of `identify_repo_dependencies`: malformed JSON
is caught inside `parse_package_json` and yields no pairs, and files with
no pairs are skipped. -/
def dep_node_fold (env : DepEnv) (w : World) (p : Str) : List (Str × List (Str × Str)) :=
  (rglobName w p (str "package.json")).foldr
    (fun f acc =>
      match env.pkgJson f with
      | none => acc
      | some deps => if deps.isEmpty then acc else (relTo p f, deps) :: acc)
    []

/-- `DependencyPlugin.identify_repo_dependencies`: the python map collects
the requirements.txt loop entries followed by the pyproject.toml loop
entries; the node map collects the package.json loop entries. -/
def identify_repo_dependencies (env : DepEnv) (w : World) (p : Str) :
    List (Str × List (Str × Str)) × List (Str × List (Str × Str)) :=
  (dep_req_fold env w p ++ dep_pyproject_fold p (rglobName w p (str "pyproject.toml")),
   dep_node_fold env w p)

/-! Shared concrete instances used by the concrete evaluations below. -/

/-- A filesystem with nothing in it. -/
def emptyWorld : World := ⟨[], [], 0⟩

/-- Plugin outcomes in which every scan returns normally. -/
def okPlugins : PluginEnv := ⟨POut.ok 0, POut.ok 0, POut.ok 0, POut.ok 0⟩

/-- A baseline environment in which every external collaborator behaves. -/
def envBase : Env :=
  { plugins := okPlugins
    gitCloneExit := 0
    clonedFiles := []
    httpOk := true
    npmInstalled := true
    npmPackExit := 0
    npmTarballName := str "pkg.tgz"
    npmTarballCreated := true
    npmTarHasPackageDir := true
    pypiApiOk := true
    pypiApiArchiveName := str "pkg.tar.gz"
    pypiNoBinaryOk := false
    pypiNoBinaryArchiveName := str "pkg.tar.gz"
    pypiRegularOk := false
    pypiRegularArchiveName := str "pkg.zip"
    pypiExtractedSubdir := some (str "pkg")
    reportFilename := str "r.md" }

/-! Lemmas about the string primitives. -/

theorem strEq_self (a : Str) : strEq a a = true := by
  simp [strEq]

theorem isPrefixChars_self_append : ∀ (l t : Str), isPrefixChars l (l ++ t) = true
  | [], _ => rfl
  | c :: l, t => by
    simpa [isPrefixChars] using isPrefixChars_self_append l t

theorem isPrefixChars_append_of_le :
    ∀ (pat a : Str), pat.length ≤ a.length → ∀ t, isPrefixChars pat (a ++ t) = isPrefixChars pat a
  | [], _, _, _ => rfl
  | p :: ps, [], h, t => by simp at h
  | p :: ps, c :: a, h, t => by
    simp only [List.cons_append, isPrefixChars]
    by_cases hpc : p = c
    · simp only [if_pos hpc]
      exact isPrefixChars_append_of_le ps a (by simpa using h) t
    · simp [if_neg hpc]

theorem dropAppendOfLe :
    ∀ (i : Nat) (a b : Str), i ≤ a.length → (a ++ b).drop i = a.drop i ++ b
  | 0, _, _, _ => by simp
  | i + 1, [], b, h => by simp at h
  | i + 1, c :: a, b, h => by
    simpa using dropAppendOfLe i a b (by simpa using h)

theorem containsSub_drop_false {pat : Str} :
    ∀ (s : Str), containsSub pat s = false → ∀ i, isPrefixChars pat (s.drop i) = false
  | [], h, i => by
    simp only [containsSub] at h
    cases pat with
    | nil => simp at h
    | cons p ps => simp [isPrefixChars]
  | c :: rest, h, i => by
    simp only [containsSub, Bool.or_eq_false_iff] at h
    cases i with
    | zero => exact h.1
    | succ j =>
      simpa using containsSub_drop_false rest h.2 j

theorem no_occ_window {pat : Str} (hp : pat ≠ []) (x y : Str)
    (hc : containsSub pat (x ++ pat.dropLast) = false) :
    ∀ i, i < x.length → isPrefixChars pat ((x ++ pat ++ y).drop i) = false := by
  intro i hi
  have hsplit : x ++ pat ++ y = (x ++ pat.dropLast) ++ (pat.getLast hp :: y) := by
    conv_lhs => rw [← List.dropLast_append_getLast hp]
    simp [List.append_assoc]
  have hplen : 1 ≤ pat.length := List.length_pos.mpr hp
  have hle : i ≤ (x ++ pat.dropLast).length := by
    simp [List.length_append, List.length_dropLast]
    omega
  rw [hsplit, dropAppendOfLe i _ _ hle,
    isPrefixChars_append_of_le pat ((x ++ pat.dropLast).drop i)
      (by simp [List.length_drop, List.length_append, List.length_dropLast]; omega)]
  exact containsSub_drop_false _ hc i

theorem replaceAllFuel_no_occ (pat new : Str) :
    ∀ (fuel : Nat) (s : Str), containsSub pat s = false → replaceAllFuel pat new fuel s = s
  | fuel, [], _ => by cases fuel <;> rfl
  | 0, c :: rest, _ => rfl
  | fuel + 1, c :: rest, h => by
    simp only [containsSub, Bool.or_eq_false_iff] at h
    simp only [replaceAllFuel, h.1, Bool.false_eq_true, if_false]
    rw [replaceAllFuel_no_occ pat new fuel rest h.2]

theorem replaceAllFuel_single (pat new : Str) (hp : pat ≠ []) :
    ∀ (x : Str) (y : Str) (fuel : Nat), (x ++ pat ++ y).length ≤ fuel →
      (∀ i, i < x.length → isPrefixChars pat ((x ++ pat ++ y).drop i) = false) →
      containsSub pat y = false →
      replaceAllFuel pat new fuel (x ++ pat ++ y) = x ++ new ++ y
  | [], y, fuel, hfuel, _, hy => by
    match pat, hp with
    | p :: ps, _ =>
      match fuel, hfuel with
      | fuel + 1, _ =>
        show replaceAllFuel (p :: ps) new (fuel + 1) ((p :: ps) ++ y) = [] ++ new ++ y
        rw [show (p :: ps) ++ y = p :: (ps ++ y) from rfl]
        simp only [replaceAllFuel, isPrefixChars_self_append (p :: ps) y,
          show p :: (ps ++ y) = (p :: ps) ++ y from rfl, if_true]
        rw [show (p :: ps).length - 1 = ps.length by simp, List.drop_left ps y,
          replaceAllFuel_no_occ (p :: ps) new fuel y hy]
        simp
  | c :: x, y, fuel, hfuel, hwin, hy => by
    match fuel, hfuel with
    | fuel + 1, hfuel =>
      have h0 : isPrefixChars pat (c :: (x ++ pat ++ y)) = false := by
        have := hwin 0 (by simp)
        simpa using this
      show replaceAllFuel pat new (fuel + 1) (c :: (x ++ pat ++ y)) = c :: (x ++ new ++ y)
      simp only [replaceAllFuel, h0, Bool.false_eq_true, if_false]
      congr 1
      refine replaceAllFuel_single pat new hp x y fuel ?_ ?_ hy
      · have : (c :: (x ++ pat ++ y)).length ≤ fuel + 1 := hfuel
        simpa using this
      · intro i hi
        have := hwin (i + 1) (by simpa using Nat.succ_lt_succ hi)
        simpa using this

theorem replaceAll_single (pat new : Str) (hp : pat ≠ []) (x y : Str)
    (hwin : ∀ i, i < x.length → isPrefixChars pat ((x ++ pat ++ y).drop i) = false)
    (hy : containsSub pat y = false) :
    replaceAll pat new (x ++ pat ++ y) = x ++ new ++ y :=
  replaceAllFuel_single pat new hp x y (x ++ pat ++ y).length (Nat.le_refl _) hwin hy

theorem splitSepFuel_no_occ (sep : Str) :
    ∀ (fuel : Nat) (s : Str), containsSub sep s = false → splitSepFuel sep fuel s = [s]
  | fuel, [], _ => by cases fuel <;> rfl
  | 0, c :: rest, _ => rfl
  | fuel + 1, c :: rest, h => by
    simp only [containsSub, Bool.or_eq_false_iff] at h
    simp only [splitSepFuel, h.1, Bool.false_eq_true, if_false]
    rw [splitSepFuel_no_occ sep fuel rest h.2]

theorem splitSepFuel_single (sep : Str) (hp : sep ≠ []) :
    ∀ (x : Str) (y : Str) (fuel : Nat), (x ++ sep ++ y).length ≤ fuel →
      (∀ i, i < x.length → isPrefixChars sep ((x ++ sep ++ y).drop i) = false) →
      containsSub sep y = false →
      splitSepFuel sep fuel (x ++ sep ++ y) = [x, y]
  | [], y, fuel, hfuel, _, hy => by
    match sep, hp with
    | p :: ps, _ =>
      match fuel, hfuel with
      | fuel + 1, _ =>
        show splitSepFuel (p :: ps) (fuel + 1) ((p :: ps) ++ y) = [[], y]
        rw [show (p :: ps) ++ y = p :: (ps ++ y) from rfl]
        simp only [splitSepFuel, isPrefixChars_self_append (p :: ps) y,
          show p :: (ps ++ y) = (p :: ps) ++ y from rfl, if_true]
        rw [show (p :: ps).length - 1 = ps.length by simp, List.drop_left ps y,
          splitSepFuel_no_occ (p :: ps) fuel y hy]
  | c :: x, y, fuel, hfuel, hwin, hy => by
    match fuel, hfuel with
    | fuel + 1, hfuel =>
      have h0 : isPrefixChars sep (c :: (x ++ sep ++ y)) = false := by
        have := hwin 0 (by simp)
        simpa using this
      show splitSepFuel sep (fuel + 1) (c :: (x ++ sep ++ y)) = [c :: x, y]
      simp only [splitSepFuel, h0, Bool.false_eq_true, if_false]
      rw [splitSepFuel_single sep hp x y fuel
        (by have : (c :: (x ++ sep ++ y)).length ≤ fuel + 1 := hfuel; simpa using this)
        (fun i hi => by
          have := hwin (i + 1) (by simpa using Nat.succ_lt_succ hi)
          simpa using this)
        hy]

theorem splitSep_single (sep : Str) (hp : sep ≠ []) (x y : Str)
    (hwin : ∀ i, i < x.length → isPrefixChars sep ((x ++ sep ++ y).drop i) = false)
    (hy : containsSub sep y = false) :
    splitSep sep (x ++ sep ++ y) = [x, y] :=
  splitSepFuel_single sep hp x y (x ++ sep ++ y).length (Nat.le_refl _) hwin hy

theorem containsSub_append_self (pat y : Str) (hp : pat ≠ []) :
    ∀ (x : Str), containsSub pat (x ++ pat ++ y) = true
  | [] => by
    match pat, hp with
    | p :: ps, _ =>
      show containsSub (p :: ps) ((p :: ps) ++ y) = true
      rw [show (p :: ps) ++ y = p :: (ps ++ y) from rfl]
      simp only [containsSub, show p :: (ps ++ y) = (p :: ps) ++ y from rfl,
        isPrefixChars_self_append (p :: ps) y, Bool.true_or]
  | c :: x => by
    show containsSub pat (c :: (x ++ pat ++ y)) = true
    simp only [containsSub, containsSub_append_self pat y hp x, Bool.or_true]

theorem head_mismatch_contains (p0 : Char) (pr : Str) :
    ∀ (x s : Str), (∀ c ∈ x, p0 ≠ c) → containsSub (p0 :: pr) s = false →
      containsSub (p0 :: pr) (x ++ s) = false
  | [], s, _, hs => hs
  | c :: x, s, hx, hs => by
    show containsSub (p0 :: pr) (c :: (x ++ s)) = false
    simp only [containsSub, Bool.or_eq_false_iff]
    constructor
    · simp [isPrefixChars, hx c (List.mem_cons_self c x)]
    · exact head_mismatch_contains p0 pr x s (fun d hd => hx d (List.mem_cons_of_mem c hd)) hs

theorem contains_none_of_head_all (p0 : Char) (pr s : Str) (hs : ∀ c ∈ s, p0 ≠ c) :
    containsSub (p0 :: pr) s = false := by
  have := head_mismatch_contains p0 pr s [] hs (by simp [containsSub])
  simpa using this

theorem two_char_pad (p0 p1 : Char) (x : Str) (hx : ∀ c ∈ x, p0 ≠ c) :
    containsSub [p0, p1] (x ++ [p0]) = false := by
  apply head_mismatch_contains p0 [p1] x [p0] hx
  simp [containsSub, isPrefixChars]

theorem dropWhile_all_false (q : Char → Bool) (s : Str) (h : ∀ c ∈ s, q c = false) :
    s.dropWhile q = s := by
  cases s with
  | nil => rfl
  | cons c rest => simp [List.dropWhile, h c (List.mem_cons_self c rest)]

theorem stripChars_eq_self (s : Str) (h : ∀ c ∈ s, isPySpace c = false) :
    stripChars s = s := by
  unfold stripChars
  rw [dropWhile_all_false isPySpace s h,
    dropWhile_all_false isPySpace s.reverse (fun c hc => h c (List.mem_reverse.mp hc)),
    List.reverse_reverse]

theorem takeWhile_append_stop (q : Char → Bool) (c : Char) (hc : q c = false) :
    ∀ (a d : Str), (a ++ c :: d).takeWhile q = a.takeWhile q
  | [], d => by simp [List.takeWhile, hc]
  | h :: t, d => by
    simp only [List.cons_append, List.takeWhile]
    cases q h with
    | true => simp [takeWhile_append_stop q c hc t d]
    | false => rfl

theorem basenameStr_append (p rel : Str) :
    basenameStr ((p ++ str "/") ++ rel) = basenameStr rel := by
  unfold basenameStr
  rw [List.reverse_append, List.reverse_append,
    show (str "/").reverse ++ p.reverse = '/' :: p.reverse from rfl,
    takeWhile_append_stop _ '/' (by simp) rel.reverse (p.reverse)]

theorem isPrefixChars_exists_append :
    ∀ (a b : Str), isPrefixChars a b = true → ∃ t, b = a ++ t
  | [], b, _ => ⟨b, rfl⟩
  | p :: ps, [], h => by simp [isPrefixChars] at h
  | p :: ps, c :: b, h => by
    simp only [isPrefixChars] at h
    by_cases hpc : p = c
    · obtain ⟨t, ht⟩ := isPrefixChars_exists_append ps b (by simpa [if_pos hpc] using h)
      exact ⟨t, by simp [← hpc, ht]⟩
    · simp [if_neg hpc] at h

/-! Lemmas about the filesystem state. -/

theorem underPath_self (d : Str) : underPath d d = true := by
  simp [underPath, strEq]

theorem hasStr_filter_not_under (d : Str) :
    ∀ (l : List Str), hasStr (l.filter (fun p => !underPath d p)) d = false
  | [] => rfl
  | a :: t => by
    by_cases h : underPath d a = true
    · simp [List.filter_cons, h, hasStr_filter_not_under d t]
    · have hne : strEq a d = false := by
        by_cases he : a = d
        · subst he
          exact absurd (underPath_self a) h
        · simp [strEq, he]
      simp [List.filter_cons, h, hasStr, hne, hasStr_filter_not_under d t]

theorem pathExists_rmtree_self (d : Str) (w : World) : pathExists (rmtree d w) d = false := by
  simp [pathExists, pathIsFile, pathIsDir, rmtree, hasStr_filter_not_under]

theorem pathIsFile_addFile (q p : Str) (w : World) (h : pathIsFile w p = true) :
    pathIsFile (addFile q w) p = true := by
  simp [pathIsFile, addFile, hasStr] at *
  simp [h]

theorem files_ensureDir (d : Str) (w : World) : (ensureDir d w).files = w.files := by
  unfold ensureDir
  split <;> rfl

theorem pathIsFile_ensureDir (d p : Str) (w : World) :
    pathIsFile (ensureDir d w) p = pathIsFile w p := by
  simp [pathIsFile, files_ensureDir]

theorem pathIsDir_addFile (q p : Str) (w : World) :
    pathIsDir (addFile q w) p = pathIsDir w p := rfl

theorem pathIsDir_ensureDir (d p : Str) (w : World) (h : pathIsDir w p = true) :
    pathIsDir (ensureDir d w) p = true := by
  unfold ensureDir
  split
  · exact h
  · simp [pathIsDir, addDir, hasStr] at *
    simp [h]

/-! Claim theorems. -/

/-- C4: for every input string, classification follows the fixed priority
order the specification states — browse-file URL before generic repo URL or
short form, registry prefix before generic http(s) URL, and anything else
is a local path only when it exists, otherwise the run fails with a fatal
classification error (exit status 1 with the filesystem untouched). -/
theorem classification_priority_order (env : Env) (w : World) (s : Str) :
    classify_source w s = resolve_priority_spec w s ∧
    (classify_source w s = SourceKind.unrecognized →
      fetch_code_source env s w = FetchRes.exit 1 w) := by
  constructor
  · rfl
  · intro h
    unfold classify_source at h
    unfold fetch_code_source
    split_ifs at h ⊢ <;> simp_all

/-- Witness for C4: a string with no recognized scheme that names nothing
on the local filesystem makes the run fail fast. -/
theorem classification_priority_order_witness :
    fetch_code_source envBase (str "no-such-scheme") emptyWorld
      = FetchRes.exit 1 emptyWorld :=
  (classification_priority_order envBase emptyWorld (str "no-such-scheme")).2 (by decide)

/-- Failure shape of `fetch_github_repo` when the clone exits non-zero. -/
theorem fetch_github_repo_fail (env : Env) (input : Str) (w : World)
    (hexit : env.gitCloneExit ≠ 0) :
    fetch_github_repo env input w =
      FetchRes.exit 1 (rmtree (tmpName (str "repo_scan_") w.tmpCounter)
        ⟨w.files, tmpName (str "repo_scan_") w.tmpCounter :: w.dirs, w.tmpCounter + 1⟩) := by
  unfold fetch_github_repo mkdtemp
  simp [hexit]

/-- C6: a git clone invocation that exits non-zero makes the pipeline
terminate with a non-zero status, and the temporary clone directory no
longer exists when the error propagates. -/
theorem clone_failure_exits_and_cleans (env : Env) (input : Str) (w : World)
    (hfile : is_github_file_url input = false)
    (hrepo : is_github_repo_url input = true)
    (hexit : env.gitCloneExit ≠ 0) :
    (mainRun env input w).exitCode = 1 ∧
    pathExists (mainRun env input w).world (tmpName (str "repo_scan_") w.tmpCounter) = false := by
  unfold mainRun fetch_code_source
  rw [hfile, hrepo]
  simp only [Bool.false_eq_true, if_false, if_true,
    fetch_github_repo_fail env input w hexit]
  exact ⟨by simp, pathExists_rmtree_self _ _⟩

/-- Witness for C6: the short form `github:u/r` with a failing clone. -/
theorem clone_failure_exits_and_cleans_witness :
    (mainRun { envBase with gitCloneExit := 1 } (str "github:u/r") emptyWorld).exitCode = 1 ∧
    pathExists (mainRun { envBase with gitCloneExit := 1 } (str "github:u/r") emptyWorld).world
      (tmpName (str "repo_scan_") emptyWorld.tmpCounter) = false :=
  clone_failure_exits_and_cleans { envBase with gitCloneExit := 1 } (str "github:u/r")
    emptyWorld (by decide) (by decide) (by decide)

/-- C8: an npm registry fetch with the npm tool absent fails fast — exit
status 1 with the filesystem exactly as before, so no temporary directory
was created; whereas any failing fetch with the tool present exits 1 with
the already-created temporary directory removed. -/
theorem npm_missing_fail_fast (env : Env) (pkg : Str) (w : World) :
    (env.npmInstalled = false → mainRun env (str "npm:" ++ pkg) w = ⟨w, 1, false, []⟩) ∧
    (∀ c we, env.npmInstalled = true → fetch_npm_package env pkg w = FetchRes.exit c we →
      c = 1 ∧ pathExists we (tmpName (str "repo_scan_npm_") w.tmpCounter) = false) := by
  constructor
  · intro h
    have h1 : is_github_file_url (str "npm:" ++ pkg) = false := rfl
    have h2 : is_github_repo_url (str "npm:" ++ pkg) = false := rfl
    have h3 : is_pypi_input (str "npm:" ++ pkg) = false := rfl
    have h4 : is_npm_input (str "npm:" ++ pkg) = true := rfl
    unfold mainRun fetch_code_source
    rw [h1, h2, h3, h4]
    unfold fetch_npm_package
    simp [h]
  · intro c we hn hf
    unfold fetch_npm_package mkdtemp at hf
    rw [hn] at hf
    simp only [Bool.not_true, Bool.false_eq_true, if_false] at hf
    split_ifs at hf
    all_goals
      first
      | (simp only [FetchRes.exit.injEq] at hf
         obtain ⟨hc, hw⟩ := hf
         exact ⟨hc.symm, by rw [← hw]; exact pathExists_rmtree_self _ _⟩)
      | (exact absurd hf (by simp))

/-- Witness for C8: fetching `npm:lodash` with npm absent leaves the world
untouched; a pack failure with npm present removes the temporary
directory. -/
theorem npm_missing_fail_fast_witness :
    mainRun { envBase with npmInstalled := false } (str "npm:lodash") emptyWorld
        = ⟨emptyWorld, 1, false, []⟩ ∧
    (1 = 1 ∧ pathExists (⟨[], [], 1⟩ : World)
        (tmpName (str "repo_scan_npm_") emptyWorld.tmpCounter) = false) :=
  ⟨(npm_missing_fail_fast { envBase with npmInstalled := false } (str "lodash") emptyWorld).1
      rfl,
   (npm_missing_fail_fast { envBase with npmPackExit := 1 } (str "lodash") emptyWorld).2
      1 ⟨[], [], 1⟩ rfl (by decide)⟩

/-- Counterexample for C1: with the second registered plugin raising an
exception, the pipeline aborts with exit status 1, no report is generated,
and the two remaining registered plugins are never invoked — against the
claim that the engine records an empty result, continues through every
remaining plugin and still generates the report. -/
theorem plugin_isolation_cex :
    mainRun { envBase with plugins := { okPlugins with banditOutcome := POut.raises } }
        (str "/src") ⟨[], [str "/src"], 0⟩
      = ⟨⟨[], [str "/src"], 0⟩, 1, false, [str "RegexPlugin", str "BanditPlugin"]⟩ := by
  decide

/-- C1 (amended): the plugin loop of the engine has no exception handler,
so when any registered plugin raises, the pipeline aborts — exit status 1,
no report written, the plugins after the first raising one never invoked —
and only the `finally` cleanup of the fetched path still runs.  Failure
isolation exists only inside plugins that catch their own exceptions. -/
theorem plugin_exception_aborts_pipeline (env : Env) (input : Str) (w : World)
    (fp : Str) (w1 : World)
    (hf : fetch_code_source env input w = FetchRes.ok fp w1)
    (hr : (runPluginLoop (pluginList env.plugins)).raised = true) :
    mainRun env input w =
      ⟨cleanupStep (cleanupNeededFor fp) fp w1, 1, false,
       (runPluginLoop (pluginList env.plugins)).invoked⟩ := by
  unfold mainRun
  rw [hf]
  simp [hr]

/-- Witness for C1 (amended): a raising third plugin aborts a run on a
local directory. -/
theorem plugin_exception_aborts_pipeline_witness :
    mainRun { envBase with plugins := { okPlugins with eslintOutcome := POut.raises } }
        (str "/data") ⟨[], [str "/data"], 0⟩
      = ⟨cleanupStep (cleanupNeededFor (str "/data")) (str "/data") ⟨[], [str "/data"], 0⟩,
         1, false,
         (runPluginLoop (pluginList { okPlugins with eslintOutcome := POut.raises })).invoked⟩ :=
  plugin_exception_aborts_pipeline
    { envBase with plugins := { okPlugins with eslintOutcome := POut.raises } }
    (str "/data") ⟨[], [str "/data"], 0⟩ (str "/data") ⟨[], [str "/data"], 0⟩
    (by decide) (by decide)

/-- C2 is a code bug: on the normal completion of a remote-file run the
temporary directory created by the fetcher is never reclaimed — the fetched
path is a regular file, so the cleanup guard `not os.path.isfile(...)` of
`main.py` line 103 skips the removal and `/tmp/repo_scan_file_0` is still a
directory of the final filesystem even though the run exits 0 with the
report written. -/
theorem remote_file_tempdir_leak :
    (mainRun envBase (str "https://example.com/file.js") emptyWorld).exitCode = 0 ∧
    (mainRun envBase (str "https://example.com/file.js") emptyWorld).reportWritten = true ∧
    pathIsDir (mainRun envBase (str "https://example.com/file.js") emptyWorld).world
      (str "/tmp/repo_scan_file_0") = true := by
  decide

/-- Counterexample for C3: a pipeline run over the existing local directory
`/home/u/repo_scan_data` deletes it, because the cleanup heuristic of
`main.py` line 68 matches on the substring `repo_scan_` anywhere in the
fetched path, and the path is not a regular file. -/
theorem local_repo_scan_dir_deleted_cex :
    pathIsDir (⟨[], [str "/home/u/repo_scan_data"], 0⟩ : World)
        (str "/home/u/repo_scan_data") = true ∧
    (mainRun envBase (str "/home/u/repo_scan_data")
        ⟨[], [str "/home/u/repo_scan_data"], 0⟩).exitCode = 0 ∧
    pathExists (mainRun envBase (str "/home/u/repo_scan_data")
        ⟨[], [str "/home/u/repo_scan_data"], 0⟩).world
      (str "/home/u/repo_scan_data") = false := by
  decide

/-- C3 (amended): an input resolving to an existing local path is never
deleted by the pipeline, provided it is a regular file, or a directory
whose path does not satisfy the cleanup heuristic of `main.py` line 68
(neither a `/tmp/repo_scan_` path nor one containing the substring
`repo_scan_`).  A local directory whose path does contain that marker is
removed by the `finally` cleanup at the end of the run. -/
theorem local_source_preserved (env : Env) (input : Str) (w : World)
    (h1 : is_github_file_url input = false)
    (h2 : is_github_repo_url input = false)
    (h3 : is_pypi_input input = false)
    (h4 : is_npm_input input = false)
    (h5 : is_remote_file input = false)
    (h6 : pathExists w input = true)
    (h7 : pathIsFile w input = true ∨ cleanupNeededFor input = false) :
    pathExists (mainRun env input w).world input = true := by
  unfold mainRun fetch_code_source
  rw [h1, h2, h3, h4, h5]
  have h6' : (pathIsFile w input || pathIsDir w input) = true := h6
  simp only [Bool.false_eq_true, if_false, h6', if_true]
  have hfile :
      ∀ w2 : World, pathIsFile w2 input = true → pathExists (cleanupStep
        (cleanupNeededFor input) input w2) input = true := by
    intro w2 hw2
    unfold cleanupStep
    simp [hw2, pathExists]
  have hnocleanup :
      ∀ w2 : World, cleanupNeededFor input = false → pathExists w2 input = true →
        pathExists (cleanupStep (cleanupNeededFor input) input w2) input = true := by
    intro w2 hc hw2
    unfold cleanupStep
    simp [hc, hw2]
  split
  · rcases h7 with h7 | h7
    · exact hfile _ h7
    · exact hnocleanup _ h7 h6
  · rcases h7 with h7 | h7
    · exact hfile _ (pathIsFile_addFile _ _ _ (by rw [pathIsFile_ensureDir]; exact h7))
    · refine hnocleanup _ h7 ?_
      have h6'' : pathIsFile w input = true ∨ pathIsDir w input = true := by
        simpa [pathExists] using h6
      unfold pathExists
      rcases h6'' with hl | hl
      · have := pathIsFile_addFile (str "reports/" ++ env.reportFilename) input
          (ensureDir (str "reports") w) (by rw [pathIsFile_ensureDir]; exact hl)
        simp [this]
      · have : pathIsDir (addFile (str "reports/" ++ env.reportFilename)
            (ensureDir (str "reports") w)) input = true := by
          rw [pathIsDir_addFile]
          exact pathIsDir_ensureDir _ _ _ hl
        simp [this]

/-- Witness for C3 (amended): a local directory without the marker in its
path survives a full run. -/
theorem local_source_preserved_witness :
    pathExists (mainRun envBase (str "/data") ⟨[], [str "/data"], 0⟩).world
      (str "/data") = true :=
  local_source_preserved envBase (str "/data") ⟨[], [str "/data"], 0⟩
    rfl rfl rfl rfl rfl (by decide) (Or.inr (by decide))

/-- C9: with the lint tool installed, scanning a directory target invokes
the external tool on at most the first file of the directory walk and
returns immediately with that file's result — every branch of the source's
file loop returns, so the result is the processed head of the walk (the
Python `None` for an empty walk) and the invocation trace never has more
than one file. -/
theorem eslint_scans_first_file_only (env : EslintEnv) (w : World) (target : Str)
    (hi : env.installed = true) (hd : pathIsDir w target = true) :
    eslint_scan env w target =
      (match walkFiles w target with
       | [] => (EsScanResult.pyNone, ([] : List Str))
       | f :: _ => (eslint_process_file env f, [f])) ∧
    (eslint_scan env w target).2.length ≤ 1 := by
  have hs : eslint_scan env w target = eslint_loop env (walkFiles w target) := by
    unfold eslint_scan
    simp [hi, hd]
  constructor
  · rw [hs]
    cases walkFiles w target <;> rfl
  · rw [hs]
    cases walkFiles w target <;> simp [eslint_loop]

/-- Witness for C9: a directory with two files beneath it — only the first
is processed. -/
theorem eslint_scans_first_file_only_witness :
    eslint_scan ⟨true, fun _ => ⟨false, 0, some []⟩⟩
        ⟨[str "/d/a.js", str "/d/b.js"], [str "/d"], 0⟩ (str "/d") =
      (match walkFiles ⟨[str "/d/a.js", str "/d/b.js"], [str "/d"], 0⟩ (str "/d") with
       | [] => (EsScanResult.pyNone, ([] : List Str))
       | f :: _ => (eslint_process_file ⟨true, fun _ => ⟨false, 0, some []⟩⟩ f, [f])) ∧
    (eslint_scan ⟨true, fun _ => ⟨false, 0, some []⟩⟩
        ⟨[str "/d/a.js", str "/d/b.js"], [str "/d"], 0⟩ (str "/d")).2.length ≤ 1 :=
  eslint_scans_first_file_only ⟨true, fun _ => ⟨false, 0, some []⟩⟩
    ⟨[str "/d/a.js", str "/d/b.js"], [str "/d"], 0⟩ (str "/d") rfl (by decide)

/-- The pyproject loop contributes nothing, whatever files are found. -/
theorem dep_pyproject_fold_nil (p : Str) : ∀ (files : List Str), dep_pyproject_fold p files = []
  | [] => rfl
  | _ :: t => dep_pyproject_fold_nil p t

/-- Every entry of the requirements fold keys a found requirements file. -/
theorem req_fold_mem (env : DepEnv) (p : Str) :
    ∀ (files : List Str) (e : Str × List (Str × Str)),
      e ∈ files.foldr (fun f acc =>
        match parse_requirements_txt (env.fileLines f) with
        | ReqParse.raised => acc
        | ReqParse.ok deps => if deps.isEmpty then acc else (relTo p f, deps) :: acc) [] →
      ∃ f, f ∈ files ∧ e.1 = relTo p f
  | [], e, h => by simp at h
  | f :: t, e, h => by
    simp only [List.foldr_cons] at h
    cases hpar : parse_requirements_txt (env.fileLines f) with
    | raised =>
      rw [hpar] at h
      obtain ⟨g, hg, he⟩ := req_fold_mem env p t e h
      exact ⟨g, List.mem_cons_of_mem f hg, he⟩
    | ok deps =>
      rw [hpar] at h
      by_cases hd : deps.isEmpty = true
      · simp only [hd, if_true] at h
        obtain ⟨g, hg, he⟩ := req_fold_mem env p t e h
        exact ⟨g, List.mem_cons_of_mem f hg, he⟩
      · simp only [hd, if_false, Bool.false_eq_true] at h
        rcases List.mem_cons.mp h with he | hm
        · exact ⟨f, List.mem_cons_self f t, by rw [he]⟩
        · obtain ⟨g, hg, he⟩ := req_fold_mem env p t e hm
          exact ⟨g, List.mem_cons_of_mem f hg, he⟩

/-- C10: repo-wide dependency identification never contributes a
pyproject.toml entry to the python map — the pyproject loop raises
`NameError` on every iteration (the parser is invoked through an unbound
unqualified name), the exception is swallowed locally and scanning
continues, so the python map equals what the requirements.txt loop alone
produces and every key of it is a requirements.txt path. -/
theorem pyproject_never_contributes (env : DepEnv) (w : World) (p : Str) :
    (identify_repo_dependencies env w p).1 = dep_req_fold env w p ∧
    ∀ e ∈ (identify_repo_dependencies env w p).1,
      strEq (basenameStr e.1) (str "requirements.txt") = true ∧
      strEq (basenameStr e.1) (str "pyproject.toml") = false := by
  have hid : (identify_repo_dependencies env w p).1 = dep_req_fold env w p := by
    show dep_req_fold env w p ++ dep_pyproject_fold p _ = dep_req_fold env w p
    rw [dep_pyproject_fold_nil p _, List.append_nil]
  refine ⟨hid, ?_⟩
  intro e he
  rw [hid] at he
  obtain ⟨f, hf, he1⟩ := req_fold_mem env p _ e he
  have hfp := List.mem_filter.mp hf
  obtain ⟨hpre, hbase⟩ := Bool.and_eq_true_iff.mp hfp.2
  obtain ⟨rel, hrel⟩ := isPrefixChars_exists_append _ _ hpre
  have hlen : p.length + 1 = (p ++ str "/").length := by simp [str]
  have hrelTo : relTo p f = rel := by
    unfold relTo
    rw [hrel, hlen, List.drop_left]
  have hbasename : basenameStr rel = str "requirements.txt" := by
    have hb : basenameStr f = str "requirements.txt" := by simpa [strEq] using hbase
    rw [hrel, basenameStr_append] at hb
    exact hb
  rw [he1, hrelTo, hbasename]
  exact ⟨strEq_self _, by decide⟩

/-- Witness for C10: a repository with one requirements.txt (one pinned
dependency) and one pyproject.toml — the python map carries only the
requirements entry. -/
theorem pyproject_never_contributes_witness :
    (identify_repo_dependencies ⟨fun _ => [str "pkg==1.0"], fun _ => none⟩
        ⟨[str "/r/requirements.txt", str "/r/pyproject.toml"], [str "/r"], 0⟩ (str "/r")).1
      = dep_req_fold ⟨fun _ => [str "pkg==1.0"], fun _ => none⟩
        ⟨[str "/r/requirements.txt", str "/r/pyproject.toml"], [str "/r"], 0⟩ (str "/r") ∧
    (strEq (basenameStr (str "requirements.txt", [(str "pkg", str "1.0")]).1)
        (str "requirements.txt") = true ∧
     strEq (basenameStr (str "requirements.txt", [(str "pkg", str "1.0")]).1)
        (str "pyproject.toml") = false) :=
  ⟨(pyproject_never_contributes ⟨fun _ => [str "pkg==1.0"], fun _ => none⟩
      ⟨[str "/r/requirements.txt", str "/r/pyproject.toml"], [str "/r"], 0⟩ (str "/r")).1,
   (pyproject_never_contributes ⟨fun _ => [str "pkg==1.0"], fun _ => none⟩
      ⟨[str "/r/requirements.txt", str "/r/pyproject.toml"], [str "/r"], 0⟩ (str "/r")).2
     (str "requirements.txt", [(str "pkg", str "1.0")]) (by decide)⟩

/-- Counterexample for C7: for the browse URL
`https://github.com/u/r/blob/main/a/blob/b.py` (branch `main`, file path
`a/blob/b.py`) the rewrite yields
`https://raw.githubusercontent.com/u/r/main/a/b.py` — `str.replace`
replaces every occurrence of the `/blob/` marker, also the one inside the
file path — and not the claimed raw URL that keeps the path intact. -/
theorem github_raw_url_cex :
    github_file_raw_url (str "https://github.com/u/r/blob/main/a/blob/b.py")
      = str "https://raw.githubusercontent.com/u/r/main/a/b.py" ∧
    github_file_raw_url (str "https://github.com/u/r/blob/main/a/blob/b.py")
      ≠ str "https://raw.githubusercontent.com/u/r/main/a/blob/b.py" := by
  decide

/-- C7 (amended): for a browse-file URL whose user, repo, branch and path
segments contain no further occurrence of `github.com` and no further
occurrence of the `/blob/` marker, the fetch target is derived by replacing
the browse host with the raw-content host and dropping the `/blob/` marker,
and the fetch is delegated to the remote-file fetcher; paths that do
contain such occurrences are rewritten further, because the code replaces
every occurrence. -/
theorem github_raw_url_rewrite (env : Env) (w : World) (u r b p : Str)
    (h1 : containsSub (str "github.com")
      (str "/" ++ u ++ str "/" ++ r ++ str "/blob/" ++ b ++ str "/" ++ p) = false)
    (h2 : containsSub (str "/blob/")
      (str "https://" ++ str "raw.githubusercontent.com" ++ str "/" ++ u ++ str "/" ++ r
        ++ str "/blob") = false)
    (h3 : containsSub (str "/blob/") (b ++ str "/" ++ p) = false) :
    github_file_raw_url
        (str "https://github.com/" ++ u ++ str "/" ++ r ++ str "/blob/" ++ b ++ str "/" ++ p)
      = str "https://raw.githubusercontent.com/" ++ u ++ str "/" ++ r ++ str "/"
        ++ b ++ str "/" ++ p ∧
    fetch_github_file env
        (str "https://github.com/" ++ u ++ str "/" ++ r ++ str "/blob/" ++ b ++ str "/" ++ p) w
      = fetch_remote_file env
        (str "https://raw.githubusercontent.com/" ++ u ++ str "/" ++ r ++ str "/"
          ++ b ++ str "/" ++ p) w := by
  have s1 : replaceAll (str "github.com") (str "raw.githubusercontent.com")
      (str "https://github.com/" ++ u ++ str "/" ++ r ++ str "/blob/" ++ b ++ str "/" ++ p)
      = str "https://" ++ str "raw.githubusercontent.com" ++ str "/" ++ u ++ str "/" ++ r
        ++ str "/blob/" ++ b ++ str "/" ++ p := by
    exact replaceAll_single (str "github.com") (str "raw.githubusercontent.com") (by decide)
      (str "https://") (str "/" ++ u ++ str "/" ++ r ++ str "/blob/" ++ b ++ str "/" ++ p)
      (no_occ_window (by decide) _ _ (by decide)) h1
  have hc2 : containsSub (str "/blob/")
      ((str "https://raw.githubusercontent.com/" ++ u ++ str "/" ++ r)
        ++ (str "/blob/").dropLast) = false := by
    rw [show ((str "/blob/").dropLast : Str) = str "/blob" from rfl]
    simp only [List.append_assoc]
    simpa [List.append_assoc] using h2
  have s2 : replaceAll (str "/blob/") (str "/")
      (str "https://" ++ str "raw.githubusercontent.com" ++ str "/" ++ u ++ str "/" ++ r
        ++ str "/blob/" ++ b ++ str "/" ++ p)
      = str "https://raw.githubusercontent.com/" ++ u ++ str "/" ++ r ++ str "/"
        ++ b ++ str "/" ++ p := by
    have hres := replaceAll_single (str "/blob/") (str "/") (by decide)
      (str "https://raw.githubusercontent.com/" ++ u ++ str "/" ++ r) (b ++ str "/" ++ p)
      (no_occ_window (by decide) _ _ hc2) h3
    rw [show str "https://" ++ str "raw.githubusercontent.com" ++ str "/" ++ u ++ str "/" ++ r
        ++ str "/blob/" ++ b ++ str "/" ++ p
        = (str "https://raw.githubusercontent.com/" ++ u ++ str "/" ++ r) ++ str "/blob/"
          ++ (b ++ str "/" ++ p) from by
      simp only [List.append_assoc]
      rfl]
    rw [hres]
    simp only [List.append_assoc]
  have key : github_file_raw_url
      (str "https://github.com/" ++ u ++ str "/" ++ r ++ str "/blob/" ++ b ++ str "/" ++ p)
      = str "https://raw.githubusercontent.com/" ++ u ++ str "/" ++ r ++ str "/"
        ++ b ++ str "/" ++ p := by
    unfold github_file_raw_url
    rw [s1, s2]
  refine ⟨key, ?_⟩
  have hdeleg : fetch_github_file env
      (str "https://github.com/" ++ u ++ str "/" ++ r ++ str "/blob/" ++ b ++ str "/" ++ p) w
      = fetch_remote_file env (github_file_raw_url
        (str "https://github.com/" ++ u ++ str "/" ++ r ++ str "/blob/" ++ b ++ str "/" ++ p))
        w := rfl
  rw [hdeleg, key]

/-- Witness for C7 (amended): the canonical browse URL for
`user/repo/blob/main/src/app.py`. -/
theorem github_raw_url_rewrite_witness :
    github_file_raw_url (str "https://github.com/" ++ str "user" ++ str "/" ++ str "repo"
        ++ str "/blob/" ++ str "main" ++ str "/" ++ str "src/app.py")
      = str "https://raw.githubusercontent.com/" ++ str "user" ++ str "/" ++ str "repo"
        ++ str "/" ++ str "main" ++ str "/" ++ str "src/app.py" ∧
    fetch_github_file envBase (str "https://github.com/" ++ str "user" ++ str "/" ++ str "repo"
        ++ str "/blob/" ++ str "main" ++ str "/" ++ str "src/app.py") emptyWorld
      = fetch_remote_file envBase (str "https://raw.githubusercontent.com/" ++ str "user"
        ++ str "/" ++ str "repo" ++ str "/" ++ str "main" ++ str "/" ++ str "src/app.py")
        emptyWorld :=
  github_raw_url_rewrite envBase emptyWorld (str "user") (str "repo") (str "main")
    (str "src/app.py") (by decide) (by decide) (by decide)

theorem goodTok_facts (t : Str) (h : goodTok t = true) :
    t ≠ [] ∧ (∀ c ∈ t, isPySpace c = false) ∧ (∀ c ∈ t, c ≠ '=') ∧ (∀ c ∈ t, c ≠ '>') ∧
      (∀ c ∈ t, c ≠ '#') := by
  unfold goodTok at h
  rw [Bool.and_eq_true] at h
  obtain ⟨h1, h2⟩ := h
  rw [List.all_eq_true] at h2
  refine ⟨?_, ?_, ?_, ?_, ?_⟩
  · intro he
    rw [he] at h1
    simp at h1
  · intro c hc
    have hx := h2 c hc
    unfold goodChar at hx
    simp only [Bool.and_eq_true, Bool.not_eq_true', decide_eq_false_iff_not] at hx
    exact hx.1.1.1
  · intro c hc
    have hx := h2 c hc
    unfold goodChar at hx
    simp only [Bool.and_eq_true, Bool.not_eq_true', decide_eq_false_iff_not] at hx
    exact hx.1.1.2
  · intro c hc
    have hx := h2 c hc
    unfold goodChar at hx
    simp only [Bool.and_eq_true, Bool.not_eq_true', decide_eq_false_iff_not] at hx
    exact hx.1.2
  · intro c hc
    have hx := h2 c hc
    unfold goodChar at hx
    simp only [Bool.and_eq_true, Bool.not_eq_true', decide_eq_false_iff_not] at hx
    exact hx.2

theorem goodTok_not_empty_list (t : Str) (h : goodTok t = true) : t.isEmpty = false := by
  have := (goodTok_facts t h).1
  cases t
  · simp at this
  · rfl

theorem hash_no_start (t rest : Str) (h : goodTok t = true) :
    isPrefixChars (str "#") (t ++ rest) = false := by
  obtain ⟨hne, _, _, _, hhash⟩ := goodTok_facts t h
  match t, hne with
  | c :: t, _ =>
    show isPrefixChars ('#' :: []) (c :: (t ++ rest)) = false
    have : ('#' : Char) ≠ c := fun he => hhash c (List.mem_cons_self c t) he.symm
    simp [isPrefixChars, this]

theorem strip_good_append (pkg mid ver : Str)
    (hp : goodTok pkg = true) (hv : goodTok ver = true)
    (hmid : ∀ c ∈ mid, isPySpace c = false) :
    stripChars (pkg ++ mid ++ ver) = pkg ++ mid ++ ver := by
  obtain ⟨_, hps, _, _, _⟩ := goodTok_facts pkg hp
  obtain ⟨_, hvs, _, _, _⟩ := goodTok_facts ver hv
  apply stripChars_eq_self
  intro c hc
  simp only [List.mem_append] at hc
  rcases hc with (h | h) | h
  · exact hps c h
  · exact hmid c h
  · exact hvs c h

theorem contains_eqeq_eqver (ver : Str) (hv : ∀ c ∈ ver, ('=' : Char) ≠ c) :
    containsSub (str "==") ('=' :: ver) = false := by
  show containsSub ('=' :: str "=") ('=' :: ver) = false
  simp only [containsSub, Bool.or_eq_false_iff]
  constructor
  · show isPrefixChars ('=' :: str "=") ('=' :: ver) = false
    cases ver with
    | nil => simp [isPrefixChars]
    | cons v vs =>
      have hvv : ('=' : Char) ≠ v := hv v (List.mem_cons_self v vs)
      simp [isPrefixChars, hvv]
  · exact contains_none_of_head_all '=' (str "=") ver hv

theorem contains_eqeq_gever (ver : Str) (hv : ∀ c ∈ ver, ('=' : Char) ≠ c) :
    containsSub (str "==") (str ">=" ++ ver) = false := by
  have h1 : isPrefixChars (str "==") ('>' :: ('=' :: ver)) = false := by
    show isPrefixChars ('=' :: str "=") ('>' :: ('=' :: ver)) = false
    simp [isPrefixChars]
  show (isPrefixChars (str "==") ('>' :: ('=' :: ver))
    || containsSub (str "==") ('=' :: ver)) = false
  rw [h1, contains_eqeq_eqver ver hv]
  rfl

theorem contains_eqeq_geform (pkg ver : Str)
    (hpk : ∀ c ∈ pkg, ('=' : Char) ≠ c) (hv : ∀ c ∈ ver, ('=' : Char) ≠ c) :
    containsSub (str "==") (pkg ++ str ">=" ++ ver) = false := by
  have h := head_mismatch_contains '=' (str "=") pkg (str ">=" ++ ver) hpk
    (contains_eqeq_gever ver hv)
  rw [← List.append_assoc] at h
  exact h

theorem parse_eq_form (pkg ver : Str) (hp : goodTok pkg = true) (hv : goodTok ver = true) :
    parse_req_line (pkg ++ str "==" ++ ver) = LineParse.ok (some (pkg, ver)) := by
  obtain ⟨hne, hps, hpeq, hpgt, hph⟩ := goodTok_facts pkg hp
  obtain ⟨hvne, hvs, hveq, hvgt, hvh⟩ := goodTok_facts ver hv
  have hpeq' : ∀ c ∈ pkg, ('=' : Char) ≠ c := fun c hc he => hpeq c hc he.symm
  have hveq' : ∀ c ∈ ver, ('=' : Char) ≠ c := fun c hc he => hveq c hc he.symm
  have hstrip : stripChars (pkg ++ str "==" ++ ver) = pkg ++ str "==" ++ ver := by
    apply strip_good_append pkg (str "==") ver hp hv
    intro c hc
    replace hc : c ∈ (['=', '='] : List Char) := hc
    simp at hc
    subst hc
    decide
  have hempty : (pkg ++ str "==" ++ ver).isEmpty = false := by
    match pkg, hne with
    | c :: t, _ => rfl
  have hhash := hash_no_start pkg (str "==" ++ ver) hp
  rw [← List.append_assoc] at hhash
  have hcont : containsSub (str "==") (pkg ++ str "==" ++ ver) = true :=
    containsSub_append_self (str "==") ver (by decide) pkg
  have hsplit : splitSep (str "==") (pkg ++ str "==" ++ ver) = [pkg, ver] := by
    apply splitSep_single (str "==") (by decide) pkg ver
    · apply no_occ_window (by decide)
      rw [show ((str "==").dropLast : Str) = str "=" from rfl]
      exact two_char_pad '=' '=' pkg hpeq'
    · exact contains_none_of_head_all '=' (str "=") ver hveq'
  unfold parse_req_line
  simp only [hstrip, hempty, hhash, Bool.or_self, Bool.false_eq_true, if_false, hcont,
    if_true, hsplit, stripChars_eq_self pkg hps, stripChars_eq_self ver hvs]

theorem parse_bare_form (pkg : Str) (hp : goodTok pkg = true) :
    parse_req_line pkg = LineParse.ok (some (pkg, [])) := by
  obtain ⟨hne, hps, hpeq, hpgt, hph⟩ := goodTok_facts pkg hp
  have hpeq' : ∀ c ∈ pkg, ('=' : Char) ≠ c := fun c hc he => hpeq c hc he.symm
  have hpgt' : ∀ c ∈ pkg, ('>' : Char) ≠ c := fun c hc he => hpgt c hc he.symm
  have hstrip : stripChars pkg = pkg := stripChars_eq_self pkg hps
  have hempty : pkg.isEmpty = false := goodTok_not_empty_list pkg hp
  have hhash : isPrefixChars (str "#") pkg = false := by
    have := hash_no_start pkg [] hp
    rwa [List.append_nil] at this
  have hc1 : containsSub (str "==") pkg = false :=
    contains_none_of_head_all '=' (str "=") pkg hpeq'
  have hc2 : containsSub (str ">=") pkg = false :=
    contains_none_of_head_all '>' (str "=") pkg hpgt'
  unfold parse_req_line
  simp only [hstrip, hempty, hhash, Bool.or_self, Bool.false_eq_true, if_false, hc1, hc2]

theorem parse_ge_form (pkg ver : Str) (hp : goodTok pkg = true) (hv : goodTok ver = true) :
    parse_req_line (pkg ++ str ">=" ++ ver)
      = LineParse.ok (some (pkg, str ">=" ++ ver)) := by
  obtain ⟨hne, hps, hpeq, hpgt, hph⟩ := goodTok_facts pkg hp
  obtain ⟨hvne, hvs, hveq, hvgt, hvh⟩ := goodTok_facts ver hv
  have hpeq' : ∀ c ∈ pkg, ('=' : Char) ≠ c := fun c hc he => hpeq c hc he.symm
  have hveq' : ∀ c ∈ ver, ('=' : Char) ≠ c := fun c hc he => hveq c hc he.symm
  have hpgt' : ∀ c ∈ pkg, ('>' : Char) ≠ c := fun c hc he => hpgt c hc he.symm
  have hvgt' : ∀ c ∈ ver, ('>' : Char) ≠ c := fun c hc he => hvgt c hc he.symm
  have hstrip : stripChars (pkg ++ str ">=" ++ ver) = pkg ++ str ">=" ++ ver := by
    apply strip_good_append pkg (str ">=") ver hp hv
    intro c hc
    replace hc : c ∈ (['>', '='] : List Char) := hc
    simp at hc
    rcases hc with hc | hc <;> subst hc <;> decide
  have hempty : (pkg ++ str ">=" ++ ver).isEmpty = false := by
    match pkg, hne with
    | c :: t, _ => rfl
  have hhash := hash_no_start pkg (str ">=" ++ ver) hp
  rw [← List.append_assoc] at hhash
  have hc1 : containsSub (str "==") (pkg ++ str ">=" ++ ver) = false :=
    contains_eqeq_geform pkg ver hpeq' hveq'
  have hcont : containsSub (str ">=") (pkg ++ str ">=" ++ ver) = true :=
    containsSub_append_self (str ">=") ver (by decide) pkg
  have hsplit : splitSep (str ">=") (pkg ++ str ">=" ++ ver) = [pkg, ver] := by
    apply splitSep_single (str ">=") (by decide) pkg ver
    · apply no_occ_window (by decide)
      rw [show ((str ">=").dropLast : Str) = str ">" from rfl]
      exact two_char_pad '>' '=' pkg hpgt'
    · exact contains_none_of_head_all '>' (str "=") ver hvgt'
  unfold parse_req_line
  simp only [hstrip, hempty, hhash, Bool.or_self, Bool.false_eq_true, if_false, hc1, hcont,
    if_true, hsplit, stripChars_eq_self pkg hps, stripChars_eq_self ver hvs]

theorem semantic_ge (pkg ver : Str) (hp : goodTok pkg = true) (hv : goodTok ver = true) :
    line_semantic_content (pkg ++ str ">=" ++ ver)
      = some (pkg, VersionConstraint.atLeast ver) := by
  obtain ⟨hne, hps, hpeq, hpgt, hph⟩ := goodTok_facts pkg hp
  obtain ⟨hvne, hvs, hveq, hvgt, hvh⟩ := goodTok_facts ver hv
  have hpeq' : ∀ c ∈ pkg, ('=' : Char) ≠ c := fun c hc he => hpeq c hc he.symm
  have hveq' : ∀ c ∈ ver, ('=' : Char) ≠ c := fun c hc he => hveq c hc he.symm
  have hpgt' : ∀ c ∈ pkg, ('>' : Char) ≠ c := fun c hc he => hpgt c hc he.symm
  have hvgt' : ∀ c ∈ ver, ('>' : Char) ≠ c := fun c hc he => hvgt c hc he.symm
  have hstrip : stripChars (pkg ++ str ">=" ++ ver) = pkg ++ str ">=" ++ ver := by
    apply strip_good_append pkg (str ">=") ver hp hv
    intro c hc
    replace hc : c ∈ (['>', '='] : List Char) := hc
    simp at hc
    rcases hc with hc | hc <;> subst hc <;> decide
  have hempty : (pkg ++ str ">=" ++ ver).isEmpty = false := by
    match pkg, hne with
    | c :: t, _ => rfl
  have hhash := hash_no_start pkg (str ">=" ++ ver) hp
  rw [← List.append_assoc] at hhash
  have hc1 : containsSub (str "==") (pkg ++ str ">=" ++ ver) = false :=
    contains_eqeq_geform pkg ver hpeq' hveq'
  have hcont : containsSub (str ">=") (pkg ++ str ">=" ++ ver) = true :=
    containsSub_append_self (str ">=") ver (by decide) pkg
  have hsplit : splitSep (str ">=") (pkg ++ str ">=" ++ ver) = [pkg, ver] := by
    apply splitSep_single (str ">=") (by decide) pkg ver
    · apply no_occ_window (by decide)
      rw [show ((str ">=").dropLast : Str) = str ">" from rfl]
      exact two_char_pad '>' '=' pkg hpgt'
    · exact contains_none_of_head_all '>' (str "=") ver hvgt'
  unfold line_semantic_content
  simp only [hstrip, hempty, hhash, Bool.or_self, Bool.false_eq_true, if_false, hc1, hcont,
    if_true, hsplit, stripChars_eq_self pkg hps, stripChars_eq_self ver hvs]

theorem semantic_rendered_ge (pkg ver : Str)
    (hp : goodTok pkg = true) (hv : goodTok ver = true) :
    line_semantic_content (pkg ++ str "==" ++ (str ">=" ++ ver))
      = some (pkg, VersionConstraint.exact (str ">=" ++ ver)) := by
  obtain ⟨hne, hps, hpeq, hpgt, hph⟩ := goodTok_facts pkg hp
  obtain ⟨hvne, hvs, hveq, hvgt, hvh⟩ := goodTok_facts ver hv
  have hpeq' : ∀ c ∈ pkg, ('=' : Char) ≠ c := fun c hc he => hpeq c hc he.symm
  have hveq' : ∀ c ∈ ver, ('=' : Char) ≠ c := fun c hc he => hveq c hc he.symm
  have hstrip : stripChars (pkg ++ str "==" ++ (str ">=" ++ ver))
      = pkg ++ str "==" ++ (str ">=" ++ ver) := by
    apply stripChars_eq_self
    intro c hc
    simp only [List.mem_append] at hc
    rcases hc with (h | h) | (h | h)
    · exact hps c h
    · replace h : c ∈ (['=', '='] : List Char) := h
      simp at h
      subst h
      decide
    · replace h : c ∈ (['>', '='] : List Char) := h
      simp at h
      rcases h with h | h <;> subst h <;> decide
    · exact hvs c h
  have hempty : (pkg ++ str "==" ++ (str ">=" ++ ver)).isEmpty = false := by
    match pkg, hne with
    | c :: t, _ => rfl
  have hhash := hash_no_start pkg (str "==" ++ (str ">=" ++ ver)) hp
  rw [← List.append_assoc] at hhash
  have hcont : containsSub (str "==") (pkg ++ str "==" ++ (str ">=" ++ ver)) = true :=
    containsSub_append_self (str "==") (str ">=" ++ ver) (by decide) pkg
  have hstripy : stripChars (str ">=" ++ ver) = str ">=" ++ ver := by
    apply stripChars_eq_self
    intro c hc
    simp only [List.mem_append] at hc
    rcases hc with h | h
    · replace h : c ∈ (['>', '='] : List Char) := h
      simp at h
      rcases h with h | h <;> subst h <;> decide
    · exact hvs c h
  have hsplit : splitSep (str "==") (pkg ++ str "==" ++ (str ">=" ++ ver))
      = [pkg, str ">=" ++ ver] := by
    apply splitSep_single (str "==") (by decide) pkg (str ">=" ++ ver)
    · apply no_occ_window (by decide)
      rw [show ((str "==").dropLast : Str) = str "=" from rfl]
      exact two_char_pad '=' '=' pkg hpeq'
    · exact contains_eqeq_gever ver hveq'
  unfold line_semantic_content
  simp only [hstrip, hempty, hhash, Bool.or_self, Bool.false_eq_true, if_false, hcont,
    if_true, hsplit, stripChars_eq_self pkg hps, hstripy]

/-- Counterexample for C5: the supported form `foo>=1.0` parses to
`(foo, \">=1.0\")`, and the re-rendering used when synthesizing the audit
manifest writes `foo==>=1.0`, which is a different line naming a different
constraint (an exact pin of the literal `>=1.0` instead of a lower bound),
so the round trip does not reproduce the semantic content of the line. -/
theorem requirements_roundtrip_cex :
    parse_req_line (str "foo>=1.0") = LineParse.ok (some (str "foo", str ">=1.0")) ∧
    render_req (str "foo", str ">=1.0") = str "foo==>=1.0" ∧
    line_semantic_content (str "foo==>=1.0") ≠ line_semantic_content (str "foo>=1.0") ∧
    str "foo==>=1.0" ≠ str "foo>=1.0" := by
  decide

/-- C5 (amended): over clean tokens, parsing and re-rendering is an exact
round trip for the `pkg==ver` and bare `pkg` forms; for the `pkg>=ver` form
parsing yields `(pkg, \">=ver\")` but the re-rendering produces
`pkg==>=ver`, whose semantic content differs from the original line. -/
theorem requirements_roundtrip_forms (pkg ver : Str)
    (hp : goodTok pkg = true) (hv : goodTok ver = true) :
    (parse_req_line (pkg ++ str "==" ++ ver) = LineParse.ok (some (pkg, ver)) ∧
      render_req (pkg, ver) = pkg ++ str "==" ++ ver) ∧
    (parse_req_line pkg = LineParse.ok (some (pkg, [])) ∧
      render_req (pkg, ([] : Str)) = pkg) ∧
    (parse_req_line (pkg ++ str ">=" ++ ver) = LineParse.ok (some (pkg, str ">=" ++ ver)) ∧
      render_req (pkg, str ">=" ++ ver) = pkg ++ str "==" ++ (str ">=" ++ ver) ∧
      line_semantic_content (render_req (pkg, str ">=" ++ ver))
        ≠ line_semantic_content (pkg ++ str ">=" ++ ver)) := by
  have hvempty : ver.isEmpty = false := goodTok_not_empty_list ver hv
  have hrender1 : render_req (pkg, ver) = pkg ++ str "==" ++ ver := by
    unfold render_req
    simp [hvempty]
  have hgene : (str ">=" ++ ver).isEmpty = false := rfl
  have hrenderge : render_req (pkg, str ">=" ++ ver)
      = pkg ++ str "==" ++ (str ">=" ++ ver) := by
    unfold render_req
    simp [hgene]
  refine ⟨⟨parse_eq_form pkg ver hp hv, hrender1⟩,
    ⟨parse_bare_form pkg hp, rfl⟩,
    ⟨parse_ge_form pkg ver hp hv, hrenderge, ?_⟩⟩
  rw [hrenderge, semantic_rendered_ge pkg ver hp hv, semantic_ge pkg ver hp hv]
  simp

/-- Witness for C5 (amended): the tokens `requests` and `2.10.0`. -/
theorem requirements_roundtrip_forms_witness :
    goodTok (str "requests") = true ∧ goodTok (str "2.10.0") = true ∧
    ((parse_req_line (str "requests" ++ str "==" ++ str "2.10.0")
        = LineParse.ok (some (str "requests", str "2.10.0")) ∧
      render_req (str "requests", str "2.10.0")
        = str "requests" ++ str "==" ++ str "2.10.0") ∧
    (parse_req_line (str "requests") = LineParse.ok (some (str "requests", [])) ∧
      render_req (str "requests", ([] : Str)) = str "requests") ∧
    (parse_req_line (str "requests" ++ str ">=" ++ str "2.10.0")
        = LineParse.ok (some (str "requests", str ">=" ++ str "2.10.0")) ∧
      render_req (str "requests", str ">=" ++ str "2.10.0")
        = str "requests" ++ str "==" ++ (str ">=" ++ str "2.10.0") ∧
      line_semantic_content (render_req (str "requests", str ">=" ++ str "2.10.0"))
        ≠ line_semantic_content (str "requests" ++ str ">=" ++ str "2.10.0"))) :=
  ⟨by decide, by decide,
   requirements_roundtrip_forms (str "requests") (str "2.10.0") (by decide) (by decide)⟩

end RepoScan
